import Mathlib

/-!
Shallow embedding of the arcade game in
`5-1 Activity Making a 2D Video Game Using AI/main.py`.

Python floats are modelled as rationals (`ℚ`); pygame integer rectangle
coordinates as `ℤ`.  Python `int(...)` applied to a float truncates toward
zero, which `truncQ` reproduces.  `random.randint(lo, hi)` draws are modelled
by an injected stream `r : ℕ → ℕ` of raw values together with a running index;
`randint` folds a raw value into the inclusive range `[lo, hi]`.  The
presentation layer (drawing, fonts, event plumbing) is out of scope, exactly
as in the spec; the embedded `frameUpdate` is the Playing branch of the main
loop body, and `pressRestart` is the `K_r` handler.
-/

namespace AvoidGame

/-- SCREEN_WIDTH from main.py. -/
def SCREEN_WIDTH : ℤ := 800

/-- SCREEN_HEIGHT from main.py. -/
def SCREEN_HEIGHT : ℤ := 600

/-- PLAYER_SIZE from main.py. -/
def PLAYER_SIZE : ℤ := 40

/-- PLAYER_SPEED from main.py (pixels per second). -/
def PLAYER_SPEED : ℚ := 300

/-- ENEMY_RADIUS from main.py. -/
def ENEMY_RADIUS : ℚ := 25

/-- COIN_RADIUS from main.py. -/
def COIN_RADIUS : ℤ := 7

/-- NUM_COINS from main.py. -/
def NUM_COINS : ℕ := 5

/-- START_TIME from main.py (countdown seconds). -/
def START_TIME : ℚ := 45

/-- WIN_SCORE from main.py. -/
def WIN_SCORE : ℤ := 20

/-- Python `int(x)` on a float: truncation toward zero. -/
def truncQ (q : ℚ) : ℤ := if 0 ≤ q then ⌊q⌋ else ⌈q⌉

/-- Source `clamp(value, minv, maxv) = max(minv, min(value, maxv))`.
The Python function is used both on ints (player rect) and floats (collision
test), hence the polymorphic order. -/
def clamp {α : Type} [LinearOrder α] (value minv maxv : α) : α :=
  max minv (min value maxv)

/-- A pygame `Rect`: integer left/top and width/height. -/
structure Rect where
  x : ℤ
  y : ℤ
  w : ℤ
  h : ℤ
  deriving DecidableEq, Repr

def Rect.left (r : Rect) : ℤ := r.x
def Rect.right (r : Rect) : ℤ := r.x + r.w
def Rect.top (r : Rect) : ℤ := r.y
def Rect.bottom (r : Rect) : ℤ := r.y + r.h
def Rect.centerx (r : Rect) : ℤ := r.x + r.w / 2
def Rect.centery (r : Rect) : ℤ := r.y + r.h / 2

/-- Source `rect_circle_collide(rect, circle_pos, circle_radius)`:
clamp the circle center onto the rectangle and compare the squared distance
with the squared radius. -/
def rectCircleCollide (rect : Rect) (cx cy : ℚ) (circleRadius : ℚ) : Bool :=
  let closestX := clamp cx (rect.left : ℚ) (rect.right : ℚ)
  let closestY := clamp cy (rect.top : ℚ) (rect.bottom : ℚ)
  let dx := cx - closestX
  let dy := cy - closestY
  decide (dx * dx + dy * dy ≤ circleRadius * circleRadius)

/-- Snapshot of the held movement keys (arrows and their WASD aliases),
as read by `Player.update`. -/
structure Keys where
  left : Bool
  right : Bool
  up : Bool
  down : Bool
  a : Bool
  d : Bool
  w : Bool
  s : Bool
  deriving DecidableEq, Repr

/-- No key held. -/
def keysNone : Keys := ⟨false, false, false, false, false, false, false, false⟩

/-- The `Player` class: a PLAYER_SIZE square rect. -/
structure Player where
  rect : Rect
  deriving DecidableEq, Repr

/-- Constructor `Player.__init__(x, y)`: a `PLAYER_SIZE` square rect centered at `(x, y)`
(pygame sets `left = x - w / 2`, `top = y - h / 2` with integer halving). -/
def Player.init (x y : ℤ) : Player :=
  { rect := { x := x - PLAYER_SIZE / 2, y := y - PLAYER_SIZE / 2,
              w := PLAYER_SIZE, h := PLAYER_SIZE } }

/-- The diagonal factor `0.70710678` from `Player.update`. -/
def diagFactor : ℚ := 70710678 / 100000000

/-- Source `Player.update(dt, keys)`: accumulate axis intents from the
arrow/WASD keys, scale by `diagFactor` when both axes are active, move by
`int(d * PLAYER_SPEED * dt)` per axis, then clamp left/top into the screen. -/
def Player.update (p : Player) (dt : ℚ) (keys : Keys) : Player :=
  let dx0 : ℤ := (if keys.left || keys.a then -1 else 0) +
                 (if keys.right || keys.d then 1 else 0)
  let dy0 : ℤ := (if keys.up || keys.w then -1 else 0) +
                 (if keys.down || keys.s then 1 else 0)
  let dx : ℚ := if dx0 ≠ 0 ∧ dy0 ≠ 0 then (dx0 : ℚ) * diagFactor else (dx0 : ℚ)
  let dy : ℚ := if dx0 ≠ 0 ∧ dy0 ≠ 0 then (dy0 : ℚ) * diagFactor else (dy0 : ℚ)
  let x1 := p.rect.x + truncQ (dx * PLAYER_SPEED * dt)
  let y1 := p.rect.y + truncQ (dy * PLAYER_SPEED * dt)
  let x2 := clamp x1 0 (SCREEN_WIDTH - p.rect.w)
  let y2 := clamp y1 0 (SCREEN_HEIGHT - p.rect.h)
  { rect := { p.rect with x := x2, y := y2 } }

/-- Run a sequence of `Player.update` calls (one `(dt, keys)` pair each). -/
def Player.run (p : Player) : List (ℚ × Keys) → Player
  | [] => p
  | (dt, keys) :: rest => (p.update dt keys).run rest

/-- The `Enemy` class: float center and velocity.  Its constructor draws a
random position and a random direction of magnitude `ENEMY_SPEED`; the
embedding quantifies over the resulting state instead of fixing a draw. -/
structure Enemy where
  x : ℚ
  y : ℚ
  vx : ℚ
  vy : ℚ
  deriving DecidableEq, Repr

/-- Source `Enemy.update(dt)`: advance by velocity, then for each axis
clamp to the wall at distance `ENEMY_RADIUS` and negate that component.  The
four `if`s run in sequence, each testing the current (possibly already
clamped) coordinate, exactly as in the source. -/
def Enemy.update (e : Enemy) (dt : ℚ) : Enemy :=
  let x1 := e.x + e.vx * dt
  let y1 := e.y + e.vy * dt
  let x2 := if x1 ≤ ENEMY_RADIUS then ENEMY_RADIUS else x1
  let vx2 := if x1 ≤ ENEMY_RADIUS then -e.vx else e.vx
  let x3 := if (SCREEN_WIDTH : ℚ) - ENEMY_RADIUS ≤ x2 then (SCREEN_WIDTH : ℚ) - ENEMY_RADIUS else x2
  let vx3 := if (SCREEN_WIDTH : ℚ) - ENEMY_RADIUS ≤ x2 then -vx2 else vx2
  let y2 := if y1 ≤ ENEMY_RADIUS then ENEMY_RADIUS else y1
  let vy2 := if y1 ≤ ENEMY_RADIUS then -e.vy else e.vy
  let y3 := if (SCREEN_HEIGHT : ℚ) - ENEMY_RADIUS ≤ y2 then (SCREEN_HEIGHT : ℚ) - ENEMY_RADIUS else y2
  let vy3 := if (SCREEN_HEIGHT : ℚ) - ENEMY_RADIUS ≤ y2 then -vy2 else vy2
  { x := x3, y := y3, vx := vx3, vy := vy3 }

/-- Run a sequence of `Enemy.update` calls. -/
def Enemy.run (e : Enemy) : List ℚ → Enemy
  | [] => e
  | dt :: rest => (e.update dt).run rest

/-- A `Coin`: integer position and collected flag. -/
structure Coin where
  x : ℤ
  y : ℤ
  collected : Bool
  deriving DecidableEq, Repr

/-- Model of `random.randint(lo, hi)` (inclusive bounds), fed by one raw stream value:
the draw is folded into `[lo, hi]`.  Modelled from the spec: randomness is an
injected source; the actual generator is external. -/
def randint (lo hi : ℤ) (raw : ℕ) : ℤ := lo + (raw : ℤ) % (hi - lo + 1)

/-- Source `Coin.respawn()`: a fresh uniformly drawn position with
margin 20 and `collected = False`.  Consumes two stream values (`r k` for x,
`r (k+1)` for y), matching the two `randint` calls. -/
def Coin.new (r : ℕ → ℕ) (k : ℕ) : Coin :=
  { x := randint 20 (SCREEN_WIDTH - 20) (r k),
    y := randint 20 (SCREEN_HEIGHT - 20) (r (k + 1)),
    collected := false }

/-- Source loop `for c in coins: c.respawn()` — respawn a whole batch, consuming two
stream values per coin in order. -/
def respawnList (r : ℕ → ℕ) : ℕ → List Coin → List Coin
  | _, [] => []
  | k, _ :: cs => Coin.new r k :: respawnList r (k + 2) cs

/-- The per-coin collection test from the main loop: squared distance from
the player's center to the coin against `(COIN_RADIUS + PLAYER_SIZE//2)²`;
an already collected coin is left alone. -/
def collectCoin (p : Player) (c : Coin) : Coin :=
  if c.collected then c
  else
    let px := p.rect.centerx
    let py := p.rect.centery
    let dx := px - c.x
    let dy := py - c.y
    if dx * dx + dy * dy ≤ (COIN_RADIUS + PLAYER_SIZE / 2) ^ 2 then
      { c with collected := true }
    else c

/-- The mutable state of `run_game`'s loop: entities, score, timers and the
`game_over` / `game_won` flags. -/
structure GameState where
  player : Player
  enemy : Enemy
  coins : List Coin
  score : ℤ
  elapsed : ℚ
  timeLeft : ℚ
  gameOver : Bool
  gameWon : Bool
  deriving DecidableEq, Repr

/-- The body of `run_game`'s loop inside `if not (game_over or game_won)`,
in source order: move player and enemy, advance the timers, recompute the
score from `int(elapsed_survival)` plus the collected count, run the coin
collection pass, respawn the batch if all coins are collected, then set
`game_over` on player/enemy overlap, resolve the timer, and finally set
`game_won` whenever the score reaches `WIN_SCORE`.  `r`/`k` feed the random
draws of a batch respawn. -/
def frameUpdate (r : ℕ → ℕ) (k : ℕ) (g : GameState) (dt : ℚ) (keys : Keys) :
    GameState :=
  if g.gameOver || g.gameWon then g
  else
    let player := g.player.update dt keys
    let enemy := g.enemy.update dt
    let elapsed := g.elapsed + dt
    let timeLeft := g.timeLeft - dt
    let score : ℤ := truncQ elapsed + (g.coins.countP (fun c => c.collected) : ℤ)
    let coins1 := g.coins.map (collectCoin player)
    let coins2 := if coins1.all (fun c => c.collected) then respawnList r k coins1
                  else coins1
    let gameOver1 := if rectCircleCollide player.rect enemy.x enemy.y ENEMY_RADIUS
                     then true else g.gameOver
    let gameOver2 := if timeLeft ≤ 0 then
                       (if WIN_SCORE ≤ score then gameOver1 else true)
                     else gameOver1
    let gameWon1 := if timeLeft ≤ 0 then
                      (if WIN_SCORE ≤ score then true else g.gameWon)
                    else g.gameWon
    let gameWon2 := if WIN_SCORE ≤ score then true else gameWon1
    { player := player, enemy := enemy, coins := coins2, score := score,
      elapsed := elapsed, timeLeft := timeLeft,
      gameOver := gameOver2, gameWon := gameWon2 }

/-- The coin-too-close-to-player test of `fix_coins_initial`:
axis-aligned distance below 60 on both axes. -/
def tooClose (p : Player) (c : Coin) : Bool :=
  decide (|c.x - p.rect.centerx| < 60 ∧ |c.y - p.rect.centery| < 60)

/-- The `while` re-roll loop of `fix_coins_initial` for one coin.  The Python
loop retries unboundedly; the embedding carries explicit fuel and returns
`none` when the fuel runs out before an acceptable draw — when it returns a
coin, that coin is exactly what the Python loop would leave behind.  Returns
the coin together with the next unused stream index. -/
def fixCoin (r : ℕ → ℕ) (p : Player) : ℕ → ℕ → Coin → Option (Coin × ℕ)
  | 0, k, c => if tooClose p c then none else some (c, k)
  | fuel + 1, k, c =>
      if tooClose p c then fixCoin r p fuel (k + 2) (Coin.new r k)
      else some (c, k)

/-- Source `fix_coins_initial` over the whole batch, threading the stream index. -/
def fixCoins (r : ℕ → ℕ) (fuel : ℕ) (p : Player) :
    ℕ → List Coin → Option (List Coin × ℕ)
  | k, [] => some ([], k)
  | k, c :: cs =>
      match fixCoin r p fuel k c with
      | none => none
      | some (c', k') =>
          match fixCoins r fuel p k' cs with
          | none => none
          | some (cs', k'') => some (c' :: cs', k'')

/-- Source `[Coin() for _ in range(n)]`: n fresh coins, two draws each. -/
def newCoins (r : ℕ → ℕ) : ℕ → ℕ → List Coin × ℕ
  | k, 0 => ([], k)
  | k, n + 1 =>
      let c := Coin.new r k
      let (cs, k') := newCoins r (k + 2) n
      (c :: cs, k')

/-- The restart branch of the `K_r` handler: fresh centered player, fresh
enemy (its random construction abstracted as the parameter `en`), fresh coin
batch, zeroed score and survival time, full countdown, both flags cleared,
then `fix_coins_initial()`.  `none` only when the re-roll fuel runs out. -/
def restart (r : ℕ → ℕ) (k fuel : ℕ) (en : Enemy) : Option GameState :=
  match fixCoins r fuel (Player.init (SCREEN_WIDTH / 2) (SCREEN_HEIGHT / 2))
      (newCoins r k NUM_COINS).2 (newCoins r k NUM_COINS).1 with
  | none => none
  | some (coins, _) =>
      some { player := Player.init (SCREEN_WIDTH / 2) (SCREEN_HEIGHT / 2),
             enemy := en, coins := coins, score := 0,
             elapsed := 0, timeLeft := START_TIME,
             gameOver := false, gameWon := false }

/-- The `K_r` key handler: the restart body runs only when
`game_over or game_won`; otherwise the key press leaves the state alone. -/
def pressRestart (r : ℕ → ℕ) (k fuel : ℕ) (en : Enemy) (g : GameState) :
    Option GameState :=
  if g.gameOver || g.gameWon then restart r k fuel en else some g

/-- The avatar spawned by `run_game` and by the restart handler:
`Player(SCREEN_WIDTH // 2, SCREEN_HEIGHT // 2)`. -/
def playerStart : Player := Player.init (SCREEN_WIDTH / 2) (SCREEN_HEIGHT / 2)

/-- The rectangle lies fully inside the 800 × 600 playfield. -/
def rectInBounds (r : Rect) : Prop :=
  0 ≤ r.left ∧ r.left + r.w ≤ SCREEN_WIDTH ∧ 0 ≤ r.top ∧ r.top + r.h ≤ SCREEN_HEIGHT

/-- The score recomputed by a Playing frame (source line
`score = int(elapsed_survival) + sum(1 for c in coins if c.collected)`,
evaluated before the coin-collection pass). -/
def frameScore (g : GameState) (dt : ℚ) : ℤ :=
  truncQ (g.elapsed + dt) + (g.coins.countP (fun c => c.collected) : ℤ)

/-- The player/enemy overlap test of a Playing frame, on the already
moved player and enemy. -/
def frameCollide (g : GameState) (dt : ℚ) (keys : Keys) : Bool :=
  rectCircleCollide (g.player.update dt keys).rect
    (g.enemy.update dt).x (g.enemy.update dt).y ENEMY_RADIUS

/-- The coin batch after the collection pass of a Playing frame
(before a possible batch respawn). -/
def frameCoins (g : GameState) (dt : ℚ) (keys : Keys) : List Coin :=
  g.coins.map (collectCoin (g.player.update dt keys))

/-- A constant raw stream for concrete evaluations. -/
def rngZero : ℕ → ℕ := fun _ => 0

/-- A coin far from the centered avatar, uncollected. -/
def coinFar : Coin := ⟨20, 20, false⟩

/-- A coin exactly under the centered avatar's center, uncollected. -/
def coinAtCenter : Coin := ⟨400, 300, false⟩

/-- Concrete Playing state for the simultaneous collision-and-win-score
frame: the enemy sits on the avatar, the survival time alone yields the win
score, and the timer has plenty left. -/
def gSim : GameState :=
  { player := playerStart, enemy := ⟨400, 300, 180, 0⟩,
    coins := [coinFar, coinFar, coinFar, coinFar, coinFar],
    score := 20, elapsed := 20, timeLeft := 10,
    gameOver := false, gameWon := false }

/-- Concrete Playing state in which one coin is collected during the frame:
one coin sits under the avatar center, the enemy is far away. -/
def gCollect : GameState :=
  { player := playerStart, enemy := ⟨100, 100, 180, 0⟩,
    coins := [coinAtCenter, coinFar, coinFar, coinFar, coinFar],
    score := 0, elapsed := 0, timeLeft := 45,
    gameOver := false, gameWon := false }

/-- Concrete Playing state in which all five coins are collected within one
frame: every coin sits under the avatar center and none was collected
before; the enemy is far away. -/
def gBatch : GameState :=
  { player := playerStart, enemy := ⟨100, 100, 180, 0⟩,
    coins := [coinAtCenter, coinAtCenter, coinAtCenter, coinAtCenter,
              coinAtCenter],
    score := 3, elapsed := 3, timeLeft := 40,
    gameOver := false, gameWon := false }

/-- Concrete Playing state about to time out with a low score and no
overlap. -/
def gTimeout : GameState :=
  { player := playerStart, enemy := ⟨100, 100, 180, 0⟩,
    coins := [coinFar, coinFar, coinFar, coinFar, coinFar],
    score := 4, elapsed := 4, timeLeft := 1,
    gameOver := false, gameWon := false }

/-- Concrete Lost state used to exercise the restart handler. -/
def gLost : GameState :=
  { player := playerStart, enemy := ⟨400, 300, 180, 0⟩,
    coins := [coinFar, coinFar, coinFar, coinFar, coinFar],
    score := 7, elapsed := 7, timeLeft := 38,
    gameOver := true, gameWon := false }

/-- The state produced by restarting from `gLost` with the all-zero raw
stream: five coins at the margin corner (20, 20), everything else reset. -/
def sRestart : GameState :=
  { player := playerStart, enemy := ⟨400, 300, 180, 0⟩,
    coins := [⟨20, 20, false⟩, ⟨20, 20, false⟩, ⟨20, 20, false⟩,
              ⟨20, 20, false⟩, ⟨20, 20, false⟩],
    score := 0, elapsed := 0, timeLeft := 45,
    gameOver := false, gameWon := false }

theorem le_clamp {α : Type} [LinearOrder α] (v lo hi : α) : lo ≤ clamp v lo hi :=
  le_max_left _ _

theorem clamp_le {α : Type} [LinearOrder α] (v lo hi : α) (h : lo ≤ hi) :
    clamp v lo hi ≤ hi :=
  max_le h (min_le_right _ _)

theorem rectInBounds_clamp (a b w h : ℤ) (hw0 : 0 ≤ w) (hwW : w ≤ SCREEN_WIDTH)
    (hh0 : 0 ≤ h) (hhH : h ≤ SCREEN_HEIGHT) :
    rectInBounds ⟨clamp a 0 (SCREEN_WIDTH - w), clamp b 0 (SCREEN_HEIGHT - h), w, h⟩ := by
  have hx := clamp_le a 0 (SCREEN_WIDTH - w) (by omega)
  have hy := clamp_le b 0 (SCREEN_HEIGHT - h) (by omega)
  exact ⟨le_clamp _ _ _, by simpa [Rect.left] using by omega,
         le_clamp _ _ _, by simpa [Rect.top] using by omega⟩

theorem Player.update_rect_eq (p : Player) (dt : ℚ) (keys : Keys) :
    ∃ a b, (p.update dt keys).rect =
      ⟨clamp a 0 (SCREEN_WIDTH - p.rect.w), clamp b 0 (SCREEN_HEIGHT - p.rect.h),
       p.rect.w, p.rect.h⟩ :=
  ⟨_, _, rfl⟩

theorem Player.update_inBounds (p : Player) (dt : ℚ) (keys : Keys)
    (hw0 : 0 ≤ p.rect.w) (hwW : p.rect.w ≤ SCREEN_WIDTH)
    (hh0 : 0 ≤ p.rect.h) (hhH : p.rect.h ≤ SCREEN_HEIGHT) :
    rectInBounds (p.update dt keys).rect := by
  obtain ⟨a, b, hab⟩ := p.update_rect_eq dt keys
  rw [hab]
  exact rectInBounds_clamp a b _ _ hw0 hwW hh0 hhH

theorem Player.run_size (inputs : List (ℚ × Keys)) (p : Player) :
    (p.run inputs).rect.w = p.rect.w ∧ (p.run inputs).rect.h = p.rect.h := by
  induction inputs generalizing p with
  | nil => exact ⟨rfl, rfl⟩
  | cons i rest ih =>
    obtain ⟨dt, keys⟩ := i
    exact (ih (p.update dt keys))

theorem Player.run_inBounds (inputs : List (ℚ × Keys)) (p : Player)
    (hw0 : 0 ≤ p.rect.w) (hwW : p.rect.w ≤ SCREEN_WIDTH)
    (hh0 : 0 ≤ p.rect.h) (hhH : p.rect.h ≤ SCREEN_HEIGHT)
    (hne : inputs ≠ []) :
    rectInBounds (p.run inputs).rect := by
  induction inputs generalizing p with
  | nil => exact absurd rfl hne
  | cons i rest ih =>
    obtain ⟨dt, keys⟩ := i
    rcases List.eq_nil_or_concat rest with hr | hr
    · subst hr
      exact p.update_inBounds dt keys hw0 hwW hh0 hhH
    · have hne' : rest ≠ [] := by
        rcases hr with ⟨l, x, rfl⟩; simp
      obtain ⟨a, b, hab⟩ := p.update_rect_eq dt keys
      exact ih (p.update dt keys)
        (by rw [hab]; exact hw0) (by rw [hab]; exact hwW)
        (by rw [hab]; exact hh0) (by rw [hab]; exact hhH) hne'

/-- Claim C5: starting from the centered avatar, after every `Player.update`
call (any `dt ≥ 0`, any key snapshot) the avatar rectangle satisfies
`0 ≤ left`, `left + width ≤ 800`, `0 ≤ top`, `top + height ≤ 600`.
A sequence with "after every call" is captured by instantiating `inputs`
at each of its nonempty prefixes. -/
theorem avatar_containment (inputs : List (ℚ × Keys))
    (hdt : ∀ i ∈ inputs, 0 ≤ i.1) (hne : inputs ≠ []) :
    0 ≤ (playerStart.run inputs).rect.left ∧
    (playerStart.run inputs).rect.left + (playerStart.run inputs).rect.w ≤ 800 ∧
    0 ≤ (playerStart.run inputs).rect.top ∧
    (playerStart.run inputs).rect.top + (playerStart.run inputs).rect.h ≤ 600 :=
  Player.run_inBounds inputs playerStart (by decide) (by decide) (by decide)
    (by decide) hne

/-- Witness for C5 at a concrete one-step input list. -/
theorem avatar_containment_witness :
    (∀ i ∈ [((1 : ℚ), keysNone)], 0 ≤ i.1) ∧ ([((1 : ℚ), keysNone)] ≠ []) ∧
    (0 ≤ (playerStart.run [((1 : ℚ), keysNone)]).rect.left ∧
     (playerStart.run [((1 : ℚ), keysNone)]).rect.left +
       (playerStart.run [((1 : ℚ), keysNone)]).rect.w ≤ 800 ∧
     0 ≤ (playerStart.run [((1 : ℚ), keysNone)]).rect.top ∧
     (playerStart.run [((1 : ℚ), keysNone)]).rect.top +
       (playerStart.run [((1 : ℚ), keysNone)]).rect.h ≤ 600) :=
  ⟨by simp, by simp, avatar_containment [((1 : ℚ), keysNone)] (by simp) (by simp)⟩

/-- Claim C10: `Player.update` only moves the rectangle; its width and height
stay `40 × 40` across any sequence of updates from the initial avatar. -/
theorem avatar_size_fixed (inputs : List (ℚ × Keys))
    (hdt : ∀ i ∈ inputs, 0 ≤ i.1) :
    (playerStart.run inputs).rect.w = 40 ∧ (playerStart.run inputs).rect.h = 40 :=
  (Player.run_size inputs playerStart).imp (fun hw => hw) (fun hh => hh)

/-- Witness for C10 at a concrete input list. -/
theorem avatar_size_fixed_witness :
    (∀ i ∈ [((1 : ℚ), keysNone)], 0 ≤ i.1) ∧
    (playerStart.run [((1 : ℚ), keysNone)]).rect.w = 40 ∧
    (playerStart.run [((1 : ℚ), keysNone)]).rect.h = 40 :=
  ⟨by simp, avatar_size_fixed [((1 : ℚ), keysNone)] (by simp)⟩

/-- Claim C9: `clamp` is a total function, and with crossed bounds
(`maxv < minv`) it returns `minv` for every input — the lower bound
dominates, because the source computes `max(minv, min(value, maxv))`. -/
theorem clamp_total_lower_dominates {α : Type} [LinearOrder α]
    (v minv maxv : α) (h : maxv < minv) : clamp v minv maxv = minv :=
  max_eq_left ((min_le_right v maxv).trans h.le)

/-- Witness for C9 at concrete crossed bounds. -/
theorem clamp_total_lower_dominates_witness :
    (2 : ℚ) < 5 ∧ clamp (3 : ℚ) 5 2 = 5 :=
  ⟨by norm_num, clamp_total_lower_dominates 3 5 2 (by norm_num)⟩

theorem Enemy.update_speed_sq (e : Enemy) (dt : ℚ) :
    (e.update dt).vx ^ 2 + (e.update dt).vy ^ 2 = e.vx ^ 2 + e.vy ^ 2 := by
  simp only [Enemy.update]
  split_ifs <;> ring

theorem Enemy.run_speed_sq (dts : List ℚ) (e : Enemy) :
    (e.run dts).vx ^ 2 + (e.run dts).vy ^ 2 = e.vx ^ 2 + e.vy ^ 2 := by
  induction dts generalizing e with
  | nil => rfl
  | cons dt rest ih =>
    rw [Enemy.run, ih (e.update dt), e.update_speed_sq dt]

theorem Enemy.update_containment (e : Enemy) (dt : ℚ) :
    25 ≤ (e.update dt).x ∧ (e.update dt).x ≤ 775 ∧
    25 ≤ (e.update dt).y ∧ (e.update dt).y ≤ 575 := by
  simp only [Enemy.update, ENEMY_RADIUS, SCREEN_WIDTH, SCREEN_HEIGHT]
  norm_num
  split_ifs <;>
    refine ⟨by linarith, by linarith, by linarith, by linarith⟩

theorem Enemy.run_containment (dts : List ℚ) (e : Enemy)
    (hx : 25 ≤ e.x ∧ e.x ≤ 775) (hy : 25 ≤ e.y ∧ e.y ≤ 575) :
    25 ≤ (e.run dts).x ∧ (e.run dts).x ≤ 775 ∧
    25 ≤ (e.run dts).y ∧ (e.run dts).y ≤ 575 := by
  induction dts generalizing e with
  | nil => exact ⟨hx.1, hx.2, hy.1, hy.2⟩
  | cons dt rest ih =>
    have h := e.update_containment dt
    exact ih (e.update dt) ⟨h.1, h.2.1⟩ ⟨h.2.2.1, h.2.2.2⟩

/-- Claim C6: across any sequence of `Enemy.update` calls with `dt ≥ 0`, the
speed magnitude `sqrt(vx² + vy²)` of an adversary with non-degenerate speed
equals its initial value — bounces only negate velocity components. -/
theorem adversary_speed_invariant (e : Enemy) (dts : List ℚ)
    (hdt : ∀ d ∈ dts, 0 ≤ d) (hnd : e.vx ≠ 0 ∨ e.vy ≠ 0) :
    Real.sqrt (((e.run dts).vx : ℝ) ^ 2 + ((e.run dts).vy : ℝ) ^ 2) =
      Real.sqrt ((e.vx : ℝ) ^ 2 + (e.vy : ℝ) ^ 2) := by
  have h : (((e.run dts).vx : ℝ) ^ 2 + ((e.run dts).vy : ℝ) ^ 2) =
      ((e.vx : ℝ) ^ 2 + (e.vy : ℝ) ^ 2) := by
    exact_mod_cast congrArg (fun q : ℚ => (q : ℝ)) (Enemy.run_speed_sq dts e)
  rw [h]

/-- Witness for C6 at a concrete adversary and step list. -/
theorem adversary_speed_invariant_witness :
    (∀ d ∈ [(1 : ℚ)], 0 ≤ d) ∧
    ((⟨400, 300, 180, 0⟩ : Enemy).vx ≠ 0 ∨ (⟨400, 300, 180, 0⟩ : Enemy).vy ≠ 0) ∧
    Real.sqrt ((((⟨400, 300, 180, 0⟩ : Enemy).run [(1 : ℚ)]).vx : ℝ) ^ 2 +
        (((⟨400, 300, 180, 0⟩ : Enemy).run [(1 : ℚ)]).vy : ℝ) ^ 2) =
      Real.sqrt (((⟨400, 300, 180, 0⟩ : Enemy).vx : ℝ) ^ 2 +
        ((⟨400, 300, 180, 0⟩ : Enemy).vy : ℝ) ^ 2) :=
  ⟨by simp, Or.inl (by norm_num),
   adversary_speed_invariant ⟨400, 300, 180, 0⟩ [(1 : ℚ)] (by simp)
     (Or.inl (by norm_num))⟩

/-- Claim C7: an adversary whose center starts inside
`[25, 775] × [25, 575]` stays there after every `Enemy.update` call
(radius 25, playfield 800 × 600).  "After each call" is captured by
instantiating `dts` at each prefix of the call sequence. -/
theorem adversary_containment (e : Enemy) (dts : List ℚ)
    (hx : 25 ≤ e.x ∧ e.x ≤ 775) (hy : 25 ≤ e.y ∧ e.y ≤ 575)
    (hdt : ∀ d ∈ dts, 0 ≤ d) :
    25 ≤ (e.run dts).x ∧ (e.run dts).x ≤ 775 ∧
    25 ≤ (e.run dts).y ∧ (e.run dts).y ≤ 575 :=
  Enemy.run_containment dts e hx hy

/-- Unfolding of `frameUpdate` on a Playing state, with every field written
out through the helper views above. -/
theorem frameUpdate_playing_eq (r : ℕ → ℕ) (k : ℕ) (g : GameState) (dt : ℚ)
    (keys : Keys) (hO : g.gameOver = false) (hW : g.gameWon = false) :
    frameUpdate r k g dt keys =
      { player := g.player.update dt keys,
        enemy := g.enemy.update dt,
        coins := if (frameCoins g dt keys).all (fun c => c.collected) then
                   respawnList r k (frameCoins g dt keys)
                 else frameCoins g dt keys,
        score := frameScore g dt,
        elapsed := g.elapsed + dt,
        timeLeft := g.timeLeft - dt,
        gameOver := if g.timeLeft - dt ≤ 0 then
                      (if WIN_SCORE ≤ frameScore g dt then
                         (if frameCollide g dt keys then true else false)
                       else true)
                    else (if frameCollide g dt keys then true else false),
        gameWon := if WIN_SCORE ≤ frameScore g dt then true
                   else (if g.timeLeft - dt ≤ 0 then
                           (if WIN_SCORE ≤ frameScore g dt then true else false)
                         else false) } := by
  unfold frameUpdate frameScore frameCollide frameCoins
  rw [hO, hW]
  rfl

theorem respawnList_collected (r : ℕ → ℕ) (cs : List Coin) :
    ∀ (k : ℕ), ∀ c ∈ respawnList r k cs, c.collected = false := by
  induction cs with
  | nil => intro k c hc; simp [respawnList] at hc
  | cons c0 rest ih =>
    intro k c hc
    rw [respawnList] at hc
    rcases List.mem_cons.mp hc with h | h
    · rw [h]; rfl
    · exact ih (k + 2) c h

theorem respawnList_length (r : ℕ → ℕ) (cs : List Coin) :
    ∀ k : ℕ, (respawnList r k cs).length = cs.length := by
  induction cs with
  | nil => intro k; rfl
  | cons c0 rest ih => intro k; rw [respawnList]; simp [ih (k + 2)]

/-- Witness for C7 at a concrete adversary and step list. -/
theorem adversary_containment_witness :
    ((25 : ℚ) ≤ 400 ∧ (400 : ℚ) ≤ 775) ∧ ((25 : ℚ) ≤ 300 ∧ (300 : ℚ) ≤ 575) ∧
    (∀ d ∈ [(1 : ℚ)], 0 ≤ d) ∧
    (25 ≤ ((⟨400, 300, 180, 0⟩ : Enemy).run [(1 : ℚ)]).x ∧
     ((⟨400, 300, 180, 0⟩ : Enemy).run [(1 : ℚ)]).x ≤ 775 ∧
     25 ≤ ((⟨400, 300, 180, 0⟩ : Enemy).run [(1 : ℚ)]).y ∧
     ((⟨400, 300, 180, 0⟩ : Enemy).run [(1 : ℚ)]).y ≤ 575) :=
  ⟨⟨by norm_num, by norm_num⟩, ⟨by norm_num, by norm_num⟩, by simp,
   adversary_containment ⟨400, 300, 180, 0⟩ [(1 : ℚ)]
     ⟨by norm_num, by norm_num⟩ ⟨by norm_num, by norm_num⟩ (by simp)⟩

/-- Claim C1, counterexample: on a Playing frame where the avatar-adversary
overlap test is true and the score is simultaneously ≥ 20, the code sets
`game_over` AND `game_won` — the unguarded score check still runs after the
collision check, so the resulting state is not "exactly Lost and not Won". -/
theorem collision_win_frame_also_won :
    gSim.gameOver = false ∧ gSim.gameWon = false ∧
    frameCollide gSim 0 keysNone = true ∧
    WIN_SCORE ≤ frameScore gSim 0 ∧
    (frameUpdate rngZero 0 gSim 0 keysNone).gameOver = true ∧
    (frameUpdate rngZero 0 gSim 0 keysNone).gameWon = true := by
  with_unfolding_all decide

/-- Claim C1 (amended): on a Playing frame with avatar-adversary overlap and
score ≥ 20 simultaneously, the Lost flag `game_over` is set, but the Won
flag `game_won` is set as well — the session ends flagged both Lost and
Won, not exactly Lost. -/
theorem collision_frame_sets_both_flags (r : ℕ → ℕ) (k : ℕ) (g : GameState)
    (dt : ℚ) (keys : Keys)
    (hO : g.gameOver = false) (hW : g.gameWon = false)
    (hcol : frameCollide g dt keys = true)
    (hsc : WIN_SCORE ≤ frameScore g dt) :
    (frameUpdate r k g dt keys).gameOver = true ∧
    (frameUpdate r k g dt keys).gameWon = true := by
  rw [frameUpdate_playing_eq r k g dt keys hO hW]
  simp [hcol, hsc]

/-- Witness for the amended C1 at the concrete overlap-and-win state. -/
theorem collision_frame_sets_both_flags_witness :
    (gSim.gameOver = false ∧ gSim.gameWon = false ∧
     frameCollide gSim 0 keysNone = true ∧ WIN_SCORE ≤ frameScore gSim 0) ∧
    ((frameUpdate rngZero 0 gSim 0 keysNone).gameOver = true ∧
     (frameUpdate rngZero 0 gSim 0 keysNone).gameWon = true) :=
  ⟨by with_unfolding_all decide,
   collision_frame_sets_both_flags rngZero 0 gSim 0 keysNone
     (by with_unfolding_all decide) (by with_unfolding_all decide)
     (by with_unfolding_all decide) (by with_unfolding_all decide)⟩

/-- Claim C2, counterexample: on a Playing frame that newly collects a coin,
the resulting score does NOT equal floor(elapsed) plus the post-update
collected count — the score was computed from the pre-collection flags. -/
theorem score_formula_post_collection_fails :
    gCollect.gameOver = false ∧ gCollect.gameWon = false ∧
    (frameUpdate rngZero 0 gCollect 0 keysNone).score ≠
      ⌊(frameUpdate rngZero 0 gCollect 0 keysNone).elapsed⌋ +
        ((frameUpdate rngZero 0 gCollect 0 keysNone).coins.countP
          (fun c => c.collected) : ℤ) := by
  with_unfolding_all decide

/-- Claim C2 (amended): after every Playing frame (with nonnegative
resulting elapsed time), the resulting score equals floor of the resulting
elapsed survival time plus the number of pickups whose collected flag was
true at the START of the frame (before that frame's collection pass), not
the post-update flags. -/
theorem score_formula_pre_collection (r : ℕ → ℕ) (k : ℕ) (g : GameState)
    (dt : ℚ) (keys : Keys)
    (hO : g.gameOver = false) (hW : g.gameWon = false)
    (hE : 0 ≤ g.elapsed + dt) :
    (frameUpdate r k g dt keys).score =
      ⌊(frameUpdate r k g dt keys).elapsed⌋ +
        (g.coins.countP (fun c => c.collected) : ℤ) := by
  rw [frameUpdate_playing_eq r k g dt keys hO hW]
  simp [frameScore, truncQ, hE]

/-- Witness for the amended C2 at the concrete coin-collecting state. -/
theorem score_formula_pre_collection_witness :
    (gCollect.gameOver = false ∧ gCollect.gameWon = false ∧
     0 ≤ gCollect.elapsed + 0) ∧
    (frameUpdate rngZero 0 gCollect 0 keysNone).score =
      ⌊(frameUpdate rngZero 0 gCollect 0 keysNone).elapsed⌋ +
        (gCollect.coins.countP (fun c => c.collected) : ℤ) :=
  ⟨by with_unfolding_all decide,
   score_formula_pre_collection rngZero 0 gCollect 0 keysNone
     (by with_unfolding_all decide) (by with_unfolding_all decide)
     (by with_unfolding_all decide)⟩

/-- Claim C3, counterexample: a frame in which all 5 pickups become
collected (from none collected before) does end with all 5 reporting
`collected = false`, but its score is `floor(elapsed) + 0 = 3`, NOT
`floor(elapsed) + 5`: the score does not include the pickups transiently
collected within that same frame. -/
theorem batch_respawn_score_excludes_new :
    gBatch.gameOver = false ∧ gBatch.gameWon = false ∧
    (frameCoins gBatch 0 keysNone).all (fun c => c.collected) = true ∧
    ((frameCoins gBatch 0 keysNone).countP (fun c => c.collected) : ℤ) = 5 ∧
    (∀ c ∈ (frameUpdate rngZero 0 gBatch 0 keysNone).coins,
      c.collected = false) ∧
    (frameUpdate rngZero 0 gBatch 0 keysNone).score = 3 ∧
    (frameUpdate rngZero 0 gBatch 0 keysNone).score ≠
      ⌊(frameUpdate rngZero 0 gBatch 0 keysNone).elapsed⌋ + 5 := by
  with_unfolding_all decide

/-- Claim C3 (amended): on a Playing frame whose collection pass leaves all
5 pickups collected, the whole batch is respawned within that same frame —
every resulting pickup reports `collected = false` with a freshly drawn
position — and the frame's score counts only the pickups already flagged
collected BEFORE the frame's collection pass. -/
theorem batch_respawn_same_frame (r : ℕ → ℕ) (k : ℕ) (g : GameState)
    (dt : ℚ) (keys : Keys)
    (hO : g.gameOver = false) (hW : g.gameWon = false)
    (hall : (frameCoins g dt keys).all (fun c => c.collected) = true)
    (hlen : g.coins.length = 5) :
    (frameUpdate r k g dt keys).coins =
      respawnList r k (frameCoins g dt keys) ∧
    (∀ c ∈ (frameUpdate r k g dt keys).coins, c.collected = false) ∧
    (frameUpdate r k g dt keys).coins.length = 5 ∧
    (frameUpdate r k g dt keys).score =
      truncQ (g.elapsed + dt) + (g.coins.countP (fun c => c.collected) : ℤ) := by
  have hc : (frameUpdate r k g dt keys).coins =
      respawnList r k (frameCoins g dt keys) := by
    rw [frameUpdate_playing_eq r k g dt keys hO hW]
    simp [hall]
  have hs : (frameUpdate r k g dt keys).score =
      truncQ (g.elapsed + dt) + (g.coins.countP (fun c => c.collected) : ℤ) := by
    rw [frameUpdate_playing_eq r k g dt keys hO hW]
    rfl
  refine ⟨hc, ?_, ?_, hs⟩
  · rw [hc]
    exact respawnList_collected r (frameCoins g dt keys) k
  · rw [hc, respawnList_length]
    simp [frameCoins, hlen]

/-- Witness for the amended C3 at the concrete all-collected state. -/
theorem batch_respawn_same_frame_witness :
    (gBatch.gameOver = false ∧ gBatch.gameWon = false ∧
     (frameCoins gBatch 0 keysNone).all (fun c => c.collected) = true ∧
     gBatch.coins.length = 5) ∧
    ((frameUpdate rngZero 0 gBatch 0 keysNone).coins =
       respawnList rngZero 0 (frameCoins gBatch 0 keysNone) ∧
     (∀ c ∈ (frameUpdate rngZero 0 gBatch 0 keysNone).coins,
       c.collected = false) ∧
     (frameUpdate rngZero 0 gBatch 0 keysNone).coins.length = 5 ∧
     (frameUpdate rngZero 0 gBatch 0 keysNone).score =
       truncQ (gBatch.elapsed + 0) +
         (gBatch.coins.countP (fun c => c.collected) : ℤ)) :=
  ⟨by with_unfolding_all decide,
   batch_respawn_same_frame rngZero 0 gBatch 0 keysNone
     (by with_unfolding_all decide) (by with_unfolding_all decide)
     (by with_unfolding_all decide) (by with_unfolding_all decide)⟩

/-- Claim C4: on a Playing frame with no avatar-adversary overlap whose
timer decrement drives `time_remaining ≤ 0`, the session becomes Won
(`game_won` set, `game_over` clear) when the frame's score reaches
`WIN_SCORE = 20`, and Lost (`game_over` set, `game_won` clear) when the
score is below 20. -/
theorem timeout_transition (r : ℕ → ℕ) (k : ℕ) (g : GameState)
    (dt : ℚ) (keys : Keys)
    (hO : g.gameOver = false) (hW : g.gameWon = false)
    (hnc : frameCollide g dt keys = false)
    (ht : g.timeLeft - dt ≤ 0) :
    (WIN_SCORE ≤ (frameUpdate r k g dt keys).score →
       (frameUpdate r k g dt keys).gameWon = true ∧
       (frameUpdate r k g dt keys).gameOver = false) ∧
    ((frameUpdate r k g dt keys).score < WIN_SCORE →
       (frameUpdate r k g dt keys).gameOver = true ∧
       (frameUpdate r k g dt keys).gameWon = false) := by
  have hscore : (frameUpdate r k g dt keys).score = frameScore g dt := by
    rw [frameUpdate_playing_eq r k g dt keys hO hW]
  constructor
  · intro hs
    rw [hscore] at hs
    rw [frameUpdate_playing_eq r k g dt keys hO hW]
    simp [hs, hnc, ht]
  · intro hs
    rw [hscore] at hs
    have hs' : ¬ WIN_SCORE ≤ frameScore g dt := not_le.mpr hs
    rw [frameUpdate_playing_eq r k g dt keys hO hW]
    simp [hs', hnc, ht]

/-- Witness for C4 at a concrete timing-out, no-overlap, low-score state. -/
theorem timeout_transition_witness :
    (gTimeout.gameOver = false ∧ gTimeout.gameWon = false ∧
     frameCollide gTimeout 1 keysNone = false ∧ gTimeout.timeLeft - 1 ≤ 0) ∧
    ((WIN_SCORE ≤ (frameUpdate rngZero 0 gTimeout 1 keysNone).score →
        (frameUpdate rngZero 0 gTimeout 1 keysNone).gameWon = true ∧
        (frameUpdate rngZero 0 gTimeout 1 keysNone).gameOver = false) ∧
     ((frameUpdate rngZero 0 gTimeout 1 keysNone).score < WIN_SCORE →
        (frameUpdate rngZero 0 gTimeout 1 keysNone).gameOver = true ∧
        (frameUpdate rngZero 0 gTimeout 1 keysNone).gameWon = false)) :=
  ⟨by with_unfolding_all decide,
   timeout_transition rngZero 0 gTimeout 1 keysNone
     (by with_unfolding_all decide) (by with_unfolding_all decide)
     (by with_unfolding_all decide) (by with_unfolding_all decide)⟩

theorem fixCoin_not_tooClose (r : ℕ → ℕ) (p : Player) :
    ∀ (fuel k : ℕ) (c c' : Coin) (k' : ℕ),
      fixCoin r p fuel k c = some (c', k') → tooClose p c' = false := by
  intro fuel
  induction fuel with
  | zero =>
    intro k c c' k' h
    unfold fixCoin at h
    by_cases htc : tooClose p c
    · simp [htc] at h
    · simp [htc] at h
      simp only [Bool.not_eq_true] at htc
      rw [← h.1]
      exact htc
  | succ fuel ih =>
    intro k c c' k' h
    unfold fixCoin at h
    by_cases htc : tooClose p c
    · rw [if_pos htc] at h
      exact ih (k + 2) (Coin.new r k) c' k' h
    · rw [if_neg htc] at h
      simp at h
      simp only [Bool.not_eq_true] at htc
      rw [← h.1]
      exact htc

theorem fixCoins_not_tooClose (r : ℕ → ℕ) (fuel : ℕ) (p : Player) :
    ∀ (cs : List Coin) (k k' : ℕ) (cs' : List Coin),
      fixCoins r fuel p k cs = some (cs', k') →
      ∀ c ∈ cs', tooClose p c = false := by
  intro cs
  induction cs with
  | nil =>
    intro k k' cs' h
    unfold fixCoins at h
    simp at h
    rw [h.1]
    simp
  | cons c0 rest ih =>
    intro k k' cs' h
    unfold fixCoins at h
    cases hf : fixCoin r p fuel k c0 with
    | none => rw [hf] at h; simp at h
    | some ck =>
      rw [hf] at h
      obtain ⟨c1, k1⟩ := ck
      simp only at h
      cases hfs : fixCoins r fuel p k1 rest with
      | none => rw [hfs] at h; simp at h
      | some csk =>
        rw [hfs] at h
        obtain ⟨cs1, k2⟩ := csk
        simp at h
        obtain ⟨hcs, hk⟩ := h
        rw [← hcs]
        intro c hc
        rcases List.mem_cons.mp hc with hcc | hcc
        · rw [hcc]
          exact fixCoin_not_tooClose r p fuel k c0 c1 k1 hf
        · exact ih k1 k2 cs1 hfs c hcc

theorem restart_fields (r : ℕ → ℕ) (k fuel : ℕ) (en : Enemy) (s : GameState)
    (h : restart r k fuel en = some s) :
    s.player = Player.init (SCREEN_WIDTH / 2) (SCREEN_HEIGHT / 2) ∧
    s.score = 0 ∧ s.elapsed = 0 ∧ s.timeLeft = START_TIME ∧
    s.gameOver = false ∧ s.gameWon = false ∧
    ∀ c ∈ s.coins, tooClose s.player c = false := by
  unfold restart at h
  cases hfc : fixCoins r fuel (Player.init (SCREEN_WIDTH / 2) (SCREEN_HEIGHT / 2))
      (newCoins r k NUM_COINS).2 (newCoins r k NUM_COINS).1 with
  | none => rw [hfc] at h; simp at h
  | some ck =>
    rw [hfc] at h
    obtain ⟨coins, k2⟩ := ck
    simp at h
    rw [← h]
    refine ⟨rfl, rfl, rfl, rfl, rfl, rfl, ?_⟩
    exact fixCoins_not_tooClose r fuel _ _ _ _ _ hfc

/-- Claim C8: restarting from a Lost (or Won) session yields score 0, zero
elapsed survival time, a 45-second countdown, the Playing state (both flags
clear), an avatar centered at (400, 300), and no pickup inside the avatar's
spawn exclusion box (axis-aligned distance below 60 on both axes).  The
`some` hypothesis records that the unbounded Python re-roll loop
terminated, which the explicit fuel makes visible. -/
theorem restart_resets_all (r : ℕ → ℕ) (k fuel : ℕ) (en : Enemy)
    (g s : GameState)
    (hstate : g.gameOver = true ∨ g.gameWon = true)
    (h : pressRestart r k fuel en g = some s) :
    s.score = 0 ∧ s.elapsed = 0 ∧ s.timeLeft = 45 ∧
    s.gameOver = false ∧ s.gameWon = false ∧
    s.player.rect.centerx = 400 ∧ s.player.rect.centery = 300 ∧
    ∀ c ∈ s.coins,
      ¬(|c.x - s.player.rect.centerx| < 60 ∧
        |c.y - s.player.rect.centery| < 60) := by
  have hres : restart r k fuel en = some s := by
    unfold pressRestart at h
    rcases hstate with h1 | h1 <;> rw [h1] at h <;> simpa using h
  obtain ⟨hp, h0, he, ht, hgo, hgw, hcoins⟩ := restart_fields r k fuel en s hres
  refine ⟨h0, he, by rw [ht]; rfl, hgo, hgw, by rw [hp]; decide,
    by rw [hp]; decide, ?_⟩
  intro c hc
  have hfar := hcoins c hc
  unfold tooClose at hfar
  exact of_decide_eq_false hfar

/-- Witness for C8: restarting the concrete Lost session with the all-zero
raw stream produces exactly `sRestart`. -/
theorem restart_resets_all_witness :
    ((gLost.gameOver = true ∨ gLost.gameWon = true) ∧
     pressRestart rngZero 0 1 ⟨400, 300, 180, 0⟩ gLost = some sRestart) ∧
    (sRestart.score = 0 ∧ sRestart.elapsed = 0 ∧ sRestart.timeLeft = 45 ∧
     sRestart.gameOver = false ∧ sRestart.gameWon = false ∧
     sRestart.player.rect.centerx = 400 ∧
     sRestart.player.rect.centery = 300 ∧
     ∀ c ∈ sRestart.coins,
       ¬(|c.x - sRestart.player.rect.centerx| < 60 ∧
         |c.y - sRestart.player.rect.centery| < 60)) :=
  ⟨⟨Or.inl (by with_unfolding_all decide), by with_unfolding_all decide⟩,
   restart_resets_all rngZero 0 1 ⟨400, 300, 180, 0⟩ gLost sRestart
     (Or.inl (by with_unfolding_all decide)) (by with_unfolding_all decide)⟩

end AvoidGame
